import Mathlib

/-!
Verification development for the Memfault heartbeat-metrics core:
metric registry and value store, CBOR heartbeat serializer, and the
bounded transactional event storage it writes through.

The public API surface (metric type enumeration, operation signatures) is
embedded from `memfault/metrics/metrics.h`; the serializer wire format and
its concrete behaviour are pinned against the byte-exact expectations of
`test_memfault_metrics_serializer.cpp`.
-/

set_option autoImplicit false

namespace Memfault

/-! ### Metric type enumeration (from `eMemfaultMetricType` in metrics.h) -/

/-- `eMemfaultMetricType`: type of a metric value, embedded from the C enum
declared in `memfault/metrics/metrics.h`. -/
inductive eMemfaultMetricType where
  | Unsigned
  | Signed
  | Timer
  | NumTypes
deriving DecidableEq, Repr

/-- Numeric code of each enumerator, following C enum numbering rules: the
first enumerator is 0 and each following one is its predecessor plus one. -/
def eMemfaultMetricType.code : eMemfaultMetricType → Nat
  | .Unsigned => 0
  | .Signed => 1
  | .Timer => 2
  | .NumTypes => 3

/-! ### CBOR minimal-width integer encoding

Modelled from the spec: the CBOR encoder implementation
(`memfault_minimal_cbor.c`) is not among the provided sources; the encoding
is reconstructed from the wire-contract description ("Integers are encoded
with the minimal-width rule (small values in 1 byte, 16/32-bit values
sign/magnitude-extended as needed) consistent with a standard compact binary
map/array/integer encoding (CBOR-compatible byte-for-byte)") and is checked
byte-for-byte below against the reference encoding recorded in
`test_memfault_metrics_serializer.cpp`. Bytes are modelled as `Nat < 256`. -/

/-- CBOR head for major type `mt` carrying the unsigned argument `n < 2^32`,
using the minimal-width rule: 1 byte below 24, then 1+1, 1+2, or 1+4 bytes. -/
def cborHead (mt : Nat) (n : Nat) : List Nat :=
  if n < 24 then [32 * mt + n]
  else if n < 256 then [32 * mt + 24, n]
  else if n < 65536 then [32 * mt + 25, n / 256, n % 256]
  else [32 * mt + 26, n / 2 ^ 24 % 256, n / 2 ^ 16 % 256, n / 2 ^ 8 % 256, n % 256]

/-- CBOR unsigned integer (major type 0). -/
def cborUint (n : Nat) : List Nat := cborHead 0 n

/-- CBOR signed integer: major type 0 for non-negative values, major type 1
(encoding `-1 - n`) for negative values. -/
def cborInt (i : Int) : List Nat :=
  if i < 0 then cborHead 1 (Int.toNat (-1 - i)) else cborHead 0 i.toNat

/-- CBOR text string: major type 3 head with the byte length, then the bytes. -/
def cborTstr (s : List Nat) : List Nat := cborHead 3 s.length ++ s

/-- CBOR map head (major type 5) for a map of `n` key/value pairs. -/
def cborMapHead (n : Nat) : List Nat := cborHead 5 n

/-- CBOR array head (major type 4) for an array of `n` elements. -/
def cborArrayHead (n : Nat) : List Nat := cborHead 4 n

/-! ### CBOR integer decoding (used to state decode-side properties) -/

/-- Decode one CBOR head: returns `(majorType, argument, rest)`. -/
def cborDecodeHead : List Nat → Option (Nat × Nat × List Nat)
  | [] => none
  | b :: rest =>
    let mt := b / 32
    let info := b % 32
    if info < 24 then some (mt, info, rest)
    else if info = 24 then
      match rest with
      | x :: r => some (mt, x, r)
      | [] => none
    else if info = 25 then
      match rest with
      | x :: y :: r => some (mt, 256 * x + y, r)
      | _ => none
    else if info = 26 then
      match rest with
      | x :: y :: z :: w :: r => some (mt, ((x * 256 + y) * 256 + z) * 256 + w, r)
      | _ => none
    else none

/-- Decode one CBOR integer (major type 0 or 1) to a mathematical integer. -/
def cborDecodeInt (bs : List Nat) : Option (Int × List Nat) :=
  match cborDecodeHead bs with
  | some (0, n, r) => some ((n : Int), r)
  | some (1, n, r) => some (-1 - (n : Int), r)
  | _ => none

/-- Decode exactly `k` consecutive CBOR integers, consuming all of `bs`. -/
def cborDecodeInts : Nat → List Nat → Option (List Int)
  | 0, [] => some []
  | 0, _ :: _ => none
  | k + 1, bs =>
    match cborDecodeInt bs with
    | some (v, r) => (cborDecodeInts k r).map (v :: ·)
    | none => none

/-- Decode a CBOR array of integers: an array head followed by its elements. -/
def cborDecodeIntArray (bs : List Nat) : Option (List Int) :=
  match cborDecodeHead bs with
  | some (4, n, r) => cborDecodeInts n r
  | _ => none

/-! ### The heartbeat registry of the serializer test

The test's fake `memfault_metrics_heartbeat_iterate` yields, in declaration
order, `unsigned_int : Unsigned = 1000`, `signed_int : Signed = -1000`,
`timer_key : Timer = 1234`. -/

/-- One row yielded during snapshot iteration: registered type and current
value (embedding `sMemfaultMetricInfo` as seen by the serializer). -/
def heartbeatMetrics (u : Int) (s : Int) (t : Int) :
    List (eMemfaultMetricType × Int) :=
  [(.Unsigned, u), (.Signed, s), (.Timer, t)]

/-- The concrete snapshot produced by the fake
`memfault_metrics_heartbeat_iterate` of the serializer test. -/
def testSnapshot : List (eMemfaultMetricType × Int) :=
  heartbeatMetrics 1000 (-1000) 1234

/-- Encoding of one metric value, selected by its registered type: Unsigned
and Timer values are encoded as CBOR unsigned integers, Signed values with
the signed rule. -/
def encodeMetricValue : eMemfaultMetricType × Int → List Nat
  | (.Signed, v) => cborInt v
  | (_, v) => cborUint v.toNat

/-! ### Serializer record layout

Modelled from the spec: `memfault_metrics_serializer.c` is not among the
provided sources. The envelope layout ("a single self-describing binary map
with fixed small-integer field codes, containing: schema-version code,
device identifier, hardware-version string, firmware-version string, a
monotonically increasing event-sequence identifier, and a nested map whose
one entry is an array of metric values in registry-declaration order") is
reconstructed with the concrete device-identity values of the test fakes,
and pinned byte-for-byte against `expected_serialization` in
`test_memfault_metrics_serializer.cpp`. -/

/-- Device serial "DAABBCCDD" as bytes (from the test fake device info). -/
def deviceSerialBytes : List Nat := [0x44, 0x41, 0x41, 0x42, 0x42, 0x43, 0x43, 0x44, 0x44]

/-- Hardware version "main" as bytes. -/
def hwVersionBytes : List Nat := [0x6d, 0x61, 0x69, 0x6e]

/-- Firmware version "1.2.3" as bytes. -/
def fwVersionBytes : List Nat := [0x31, 0x2e, 0x32, 0x2e, 0x33]

/-- Event sequence identifier "evt_24" as bytes. -/
def eventIdBytes : List Nat := [0x65, 0x76, 0x74, 0x5f, 0x32, 0x34]

/-- The envelope chunks appended by the serializer, in stream order, before
the metric values: the outer map head, the small-integer field codes with
their values, and the nested metrics map up to its single key. -/
def envelopeChunks : List (List Nat) :=
  [cborMapHead 7,
   cborUint 2, cborUint 1,
   cborUint 3, cborUint 1,
   cborUint 7, cborTstr deviceSerialBytes,
   cborUint 10, cborTstr hwVersionBytes,
   cborUint 9, cborTstr fwVersionBytes,
   cborUint 6, cborTstr eventIdBytes,
   cborUint 4, cborMapHead 1, cborUint 1]

/-- The metrics-section chunks: the array head followed by one encoded
integer per registry entry, in declaration order. -/
def metricsChunks (ms : List (eMemfaultMetricType × Int)) : List (List Nat) :=
  cborArrayHead ms.length :: ms.map encodeMetricValue

/-- All chunks appended, in order, by one heartbeat serialize call. -/
def heartbeatChunks (ms : List (eMemfaultMetricType × Int)) : List (List Nat) :=
  envelopeChunks ++ metricsChunks ms

/-- The full encoded heartbeat record. -/
def heartbeatRecord (ms : List (eMemfaultMetricType × Int)) : List Nat :=
  (heartbeatChunks ms).flatten

/-- Byte length of the fixed envelope (everything before the metrics array
head). -/
def envelopeSize : Nat := envelopeChunks.flatten.length

/-- `memfault_metrics_heartbeat_compute_worst_case_storage_size`, modelled
from the spec: "sum of the maximum possible encoded byte length of the
envelope fields plus, for every registered metric, the maximum encoded
length of a 32-bit integer value in the chosen binary format (map/array
structural overhead included)"; a CBOR 32-bit integer occupies at most 5
bytes. A pure function of the registry size `num`. -/
def memfault_metrics_heartbeat_compute_worst_case_storage_size (num : Nat) : Nat :=
  envelopeSize + (cborArrayHead num).length + 5 * num

/-- The reference encoding `expected_serialization` from
`test_memfault_metrics_serializer.cpp`, copied byte for byte. -/
def expected_serialization : List Nat :=
  [0xa7, 0x02, 0x01, 0x03, 0x01, 0x07, 0x69, 0x44, 0x41, 0x41,
   0x42, 0x42, 0x43, 0x43, 0x44, 0x44, 0x0a, 0x64, 0x6d, 0x61,
   0x69, 0x6e, 0x09, 0x65, 0x31, 0x2e, 0x32, 0x2e, 0x33, 0x06,
   0x66, 0x65, 0x76, 0x74, 0x5f, 0x32, 0x34, 0x04, 0xa1, 0x01,
   0x83, 0x19, 0x03, 0xe8, 0x39, 0x03, 0xe7, 0x19, 0x04, 0xd2]

/-! ### Bounded transactional event storage

Modelled from the spec: `memfault_event_storage.c` and the test fake
`fake_memfault_event_storage.c` are not among the provided sources. The
model follows §4.3: `begin_write` opens a transaction, each `append` checks
remaining capacity before writing and reports `NoSpace` when the bytes do
not fit, and `finish_write(rollback)` either restores the write cursor to
its value at `begin_write` (rollback) or atomically makes all appended bytes
visible to the reader (commit). -/

/-- Event storage state: total `capacity`, the bytes written so far (`data`,
committed prefix plus any pending transaction bytes), and the committed
boundary `committedLen` (the reader's visibility frontier). -/
structure EventStorage where
  capacity : Nat
  data : List Nat
  committedLen : Nat
deriving DecidableEq, Repr

/-- The bytes visible to the external reader: the committed prefix. -/
def committedBytes (s : EventStorage) : List Nat := s.data.take s.committedLen

/-- A fresh storage region of capacity `c` with `prior` already committed. -/
def storageWithCommitted (prior : List Nat) (c : Nat) : EventStorage :=
  { capacity := prior.length + c, data := prior, committedLen := prior.length }

/-- `append`: checks remaining capacity before writing; `none` models the
`NoSpace` error, in which case nothing is written. -/
def esAppend (s : EventStorage) (bytes : List Nat) : Option EventStorage :=
  if s.data.length + bytes.length ≤ s.capacity then
    some { s with data := s.data ++ bytes }
  else none

/-- `finish_write(rollback)`: rollback restores the write cursor to its
value at `begin_write` (dropping pending bytes); commit makes every
appended byte visible by advancing the committed boundary. -/
def esFinishWrite (s : EventStorage) (rollback : Bool) : EventStorage :=
  if rollback then { s with data := s.data.take s.committedLen }
  else { s with committedLen := s.data.length }

/-- Append the given chunks one at a time, stopping at the first `NoSpace`;
returns the resulting state and whether every append succeeded. -/
def serializeAppend (s : EventStorage) :
    List (List Nat) → EventStorage × Bool
  | [] => (s, true)
  | c :: rest =>
    match esAppend s c with
    | some s2 => serializeAppend s2 rest
    | none => (s, false)

/-- `memfault_metrics_heartbeat_serialize`, modelled from the spec:
begin a storage transaction, stream the envelope and one encoded integer per
registry entry through `append`, then `finish_write` with rollback exactly
when some append reported `NoSpace`. Returns the final storage state and
`true` on commit, `false` on rollback. -/
def memfault_metrics_heartbeat_serialize
    (ms : List (eMemfaultMetricType × Int)) (s : EventStorage) :
    EventStorage × Bool :=
  let r := serializeAppend s (heartbeatChunks ms)
  (esFinishWrite r.1 (!r.2), r.2)

/-! ### Storage-operation traces (for the transaction-discipline claim) -/

/-- One call into the storage provider. -/
inductive StorageOp where
  | beginWrite
  | append (n : Nat)
  | finishWrite (rollback : Bool)
deriving DecidableEq, Repr

/-- Whether an operation is a `begin_write`. -/
def StorageOp.isBegin : StorageOp → Bool
  | .beginWrite => true
  | _ => false

/-- Whether an operation is a `finish_write`. -/
def StorageOp.isFinish : StorageOp → Bool
  | .finishWrite _ => true
  | _ => false

/-- Trace of the append phase given the remaining free space and the chunk
sizes: appends succeed while they fit; the first one that does not fit stops
the encode immediately. -/
def appendTrace (free : Nat) : List Nat → List StorageOp × Bool
  | [] => ([], true)
  | n :: rest =>
    if n ≤ free then
      let r := appendTrace (free - n) rest
      (.append n :: r.1, r.2)
    else ([], false)

/-- Full storage-operation trace of one serialize call with `free` bytes of
space available: one `begin_write`, the appends, and one `finish_write`
whose rollback flag is set exactly when an append ran out of space. -/
def serializeTrace (ms : List (eMemfaultMetricType × Int)) (free : Nat) :
    List StorageOp :=
  let r := appendTrace free ((heartbeatChunks ms).map List.length)
  .beginWrite :: r.1 ++ [.finishWrite (!r.2)]



theorem cborHead_length_le (mt n : Nat) : (cborHead mt n).length ≤ 5 := by
  unfold cborHead
  split_ifs <;> simp

theorem cborInt_length_le (i : Int) : (cborInt i).length ≤ 5 := by
  unfold cborInt
  split_ifs with h
  · exact cborHead_length_le 1 _
  · exact cborHead_length_le 0 _

theorem cborDecodeHead_append (mt n : Nat) (rest : List Nat) (hn : n < 2 ^ 32) :
    cborDecodeHead (cborHead mt n ++ rest) = some (mt, n, rest) := by
  unfold cborHead
  split_ifs with h1 h2 h3
  · have hd : (32 * mt + n) / 32 = mt := by omega
    have hm : (32 * mt + n) % 32 = n := by omega
    simp [cborDecodeHead, hd, hm, h1]
  · have hd : (32 * mt + 24) / 32 = mt := by omega
    have hm : (32 * mt + 24) % 32 = 24 := by omega
    simp [cborDecodeHead, hd, hm]
  · have hd : (32 * mt + 25) / 32 = mt := by omega
    have hm : (32 * mt + 25) % 32 = 25 := by omega
    simp [cborDecodeHead, hd, hm]
    omega
  · have hd : (32 * mt + 26) / 32 = mt := by omega
    have hm : (32 * mt + 26) % 32 = 26 := by omega
    simp [cborDecodeHead, hd, hm]
    omega

theorem cborDecodeInt_cborUint (n : Nat) (rest : List Nat) (h : n < 2 ^ 32) :
    cborDecodeInt (cborUint n ++ rest) = some ((n : Int), rest) := by
  simp [cborDecodeInt, cborUint, cborDecodeHead_append 0 n rest h]

theorem cborDecodeInt_cborInt (i : Int) (rest : List Nat)
    (hlo : -(2 ^ 31) ≤ i) (hhi : i < 2 ^ 31) :
    cborDecodeInt (cborInt i ++ rest) = some (i, rest) := by
  unfold cborInt
  split_ifs with h
  · have hb : Int.toNat (-1 - i) < 2 ^ 32 := by omega
    simp [cborDecodeInt, cborDecodeHead_append 1 _ rest hb]
    omega
  · have hb : i.toNat < 2 ^ 32 := by omega
    simp [cborDecodeInt, cborDecodeHead_append 0 _ rest hb]
    omega




theorem storageWithCommitted_capacity (prior : List Nat) (c : Nat) :
    (storageWithCommitted prior c).capacity = prior.length + c := rfl

theorem storageWithCommitted_data (prior : List Nat) (c : Nat) :
    (storageWithCommitted prior c).data = prior := rfl

theorem storageWithCommitted_committedLen (prior : List Nat) (c : Nat) :
    (storageWithCommitted prior c).committedLen = prior.length := rfl

theorem serializeAppend_cons (s : EventStorage) (c : List Nat) (rest : List (List Nat)) :
    serializeAppend s (c :: rest) =
      if s.data.length + c.length ≤ s.capacity then
        serializeAppend { s with data := s.data ++ c } rest
      else (s, false) := by
  by_cases h : s.data.length + c.length ≤ s.capacity <;>
    simp [serializeAppend, esAppend, h]

theorem serializeAppend_spec (chunks : List (List Nat)) :
    ∀ s : EventStorage,
      (serializeAppend s chunks).1.capacity = s.capacity ∧
      (serializeAppend s chunks).1.committedLen = s.committedLen ∧
      (∃ ext, (serializeAppend s chunks).1.data = s.data ++ ext) ∧
      (s.data.length ≤ s.capacity →
        ((serializeAppend s chunks).2 = true ↔
          s.data.length + chunks.flatten.length ≤ s.capacity)) ∧
      ((serializeAppend s chunks).2 = true →
        (serializeAppend s chunks).1.data = s.data ++ chunks.flatten) := by
  induction chunks with
  | nil =>
    intro s
    refine ⟨rfl, rfl, ⟨[], (List.append_nil s.data).symm⟩, fun h => ?_,
      fun _ => (List.append_nil s.data).symm⟩
    exact iff_of_true rfl (by simpa using h)
  | cons c rest ih =>
    intro s
    rw [serializeAppend_cons]
    by_cases h : s.data.length + c.length ≤ s.capacity
    · simp only [if_pos h]
      obtain ⟨hcap, hcl, ⟨ext, hdata⟩, hok, hsucc⟩ := ih { s with data := s.data ++ c }
      refine ⟨hcap, hcl, ⟨c ++ ext, by simpa [List.append_assoc] using hdata⟩, ?_, ?_⟩
      · intro _
        rw [hok (by simpa using h)]
        simp only [List.flatten_cons, List.length_append]
        constructor <;> intro <;> omega
      · intro h2
        rw [hsucc h2]
        simp [List.append_assoc]
    · simp only [if_neg h]
      refine ⟨trivial, trivial, ⟨[], by simp⟩, ?_, by simp⟩
      intro _
      simp only [List.flatten_cons, List.length_append]
      refine iff_of_false (by simp) ?_
      omega

theorem serialize_outcome (ms : List (eMemfaultMetricType × Int))
    (prior : List Nat) (c : Nat) :
    (memfault_metrics_heartbeat_serialize ms (storageWithCommitted prior c)).2 =
      decide ((heartbeatRecord ms).length ≤ c) := by
  obtain ⟨hcap, hcl, hext, hok, hsucc⟩ :=
    serializeAppend_spec (heartbeatChunks ms) (storageWithCommitted prior c)
  have h2 := hok (by simp [storageWithCommitted_capacity, storageWithCommitted_data])
  rw [storageWithCommitted_capacity, storageWithCommitted_data] at h2
  by_cases hfits : (heartbeatRecord ms).length ≤ c
  · have ht : (serializeAppend (storageWithCommitted prior c) (heartbeatChunks ms)).2 = true := by
      rw [h2]
      simp only [heartbeatRecord] at hfits
      omega
    simp [memfault_metrics_heartbeat_serialize, ht, hfits]
  · have ht : (serializeAppend (storageWithCommitted prior c) (heartbeatChunks ms)).2 = false := by
      cases hb : (serializeAppend (storageWithCommitted prior c) (heartbeatChunks ms)).2 with
      | false => rfl
      | true =>
        rw [h2] at hb
        simp only [heartbeatRecord] at hfits
        omega
    simp [memfault_metrics_heartbeat_serialize, ht, hfits]

theorem serialize_commit_committed (ms : List (eMemfaultMetricType × Int))
    (prior : List Nat) (c : Nat) (h : (heartbeatRecord ms).length ≤ c) :
    committedBytes (memfault_metrics_heartbeat_serialize ms (storageWithCommitted prior c)).1 =
      prior ++ heartbeatRecord ms := by
  obtain ⟨hcap, hcl, hext, hok, hsucc⟩ :=
    serializeAppend_spec (heartbeatChunks ms) (storageWithCommitted prior c)
  have h2 := hok (by simp [storageWithCommitted_capacity, storageWithCommitted_data])
  rw [storageWithCommitted_capacity, storageWithCommitted_data] at h2
  have hoktrue : (serializeAppend (storageWithCommitted prior c) (heartbeatChunks ms)).2 = true := by
    rw [h2]
    simp only [heartbeatRecord] at h
    omega
  have hdata := hsucc hoktrue
  rw [storageWithCommitted_data] at hdata
  simp [memfault_metrics_heartbeat_serialize, hoktrue, esFinishWrite, committedBytes, hdata,
    heartbeatRecord]

theorem serialize_rollback_committed (ms : List (eMemfaultMetricType × Int))
    (prior : List Nat) (c : Nat) (h : c < (heartbeatRecord ms).length) :
    committedBytes (memfault_metrics_heartbeat_serialize ms (storageWithCommitted prior c)).1 =
      prior := by
  obtain ⟨hcap, hcl, ⟨ext, hdata⟩, hok, hsucc⟩ :=
    serializeAppend_spec (heartbeatChunks ms) (storageWithCommitted prior c)
  have h2 := hok (by simp [storageWithCommitted_capacity, storageWithCommitted_data])
  rw [storageWithCommitted_capacity, storageWithCommitted_data] at h2
  have hokfalse : (serializeAppend (storageWithCommitted prior c) (heartbeatChunks ms)).2 = false := by
    cases hb : (serializeAppend (storageWithCommitted prior c) (heartbeatChunks ms)).2 with
    | false => rfl
    | true =>
      rw [h2] at hb
      simp only [heartbeatRecord] at h
      omega
  rw [storageWithCommitted_data] at hdata
  rw [storageWithCommitted_committedLen] at hcl
  simp [memfault_metrics_heartbeat_serialize, hokfalse, esFinishWrite, committedBytes, hcl, hdata,
    List.take_take, List.take_left]




theorem envelopeSize_eq : envelopeSize = 40 := by decide

theorem heartbeatRecord_split (ms : List (eMemfaultMetricType × Int)) :
    heartbeatRecord ms = envelopeChunks.flatten ++ (metricsChunks ms).flatten := by
  simp [heartbeatRecord, heartbeatChunks]

theorem heartbeatRecord_drop_envelope (ms : List (eMemfaultMetricType × Int)) :
    (heartbeatRecord ms).drop envelopeSize = (metricsChunks ms).flatten := by
  rw [heartbeatRecord_split, envelopeSize]
  exact List.drop_left _ _

theorem encodeMetricValue_length_le (m : eMemfaultMetricType × Int) :
    (encodeMetricValue m).length ≤ 5 := by
  rcases m with ⟨ty, v⟩
  cases ty <;> simp [encodeMetricValue, cborUint] <;>
    first
      | exact cborHead_length_le 0 _
      | exact cborInt_length_le v

theorem heartbeatRecord_length (ms : List (eMemfaultMetricType × Int)) :
    (heartbeatRecord ms).length =
      envelopeSize + (cborArrayHead ms.length).length +
        ((ms.map encodeMetricValue).map List.length).sum := by
  rw [heartbeatRecord_split]
  simp [metricsChunks, envelopeSize, List.length_flatten]
  omega

theorem heartbeatRecord_length_le_worst_case (ms : List (eMemfaultMetricType × Int)) :
    (heartbeatRecord ms).length ≤
      memfault_metrics_heartbeat_compute_worst_case_storage_size ms.length := by
  rw [heartbeatRecord_length, memfault_metrics_heartbeat_compute_worst_case_storage_size]
  have hsum : ((ms.map encodeMetricValue).map List.length).sum ≤ 5 * ms.length := by
    induction ms with
    | nil => simp
    | cons m rest ih =>
      simp only [List.map_cons, List.sum_cons, List.length_cons]
      have := encodeMetricValue_length_le m
      omega
  omega

theorem metrics_section_decodes (u s t : Int)
    (hu0 : 0 ≤ u) (hu : u < 2 ^ 32) (hs0 : -(2 ^ 31) ≤ s) (hs : s < 2 ^ 31)
    (ht0 : 0 ≤ t) (ht : t < 2 ^ 32) :
    cborDecodeIntArray ((metricsChunks (heartbeatMetrics u s t)).flatten) =
      some [u, s, t] := by
  have hu32 : u.toNat < 2 ^ 32 := by omega
  have ht32 : t.toNat < 2 ^ 32 := by omega
  have hexp : (metricsChunks (heartbeatMetrics u s t)).flatten =
      cborArrayHead 3 ++ (cborUint u.toNat ++ (cborInt s ++ (cborUint t.toNat ++ []))) := rfl
  rw [hexp]
  simp only [cborDecodeIntArray, cborArrayHead]
  rw [cborDecodeHead_append 4 3 _ (by norm_num)]
  show cborDecodeInts 3 _ = _
  rw [show (3 : Nat) = 2 + 1 from rfl, cborDecodeInts,
    cborDecodeInt_cborUint u.toNat _ hu32]
  show Option.map _ (cborDecodeInts 2 _) = _
  rw [show (2 : Nat) = 1 + 1 from rfl, cborDecodeInts, cborDecodeInt_cborInt s _ hs0 hs]
  show Option.map _ (Option.map _ (cborDecodeInts 1 _)) = _
  rw [show (1 : Nat) = 0 + 1 from rfl, cborDecodeInts,
    cborDecodeInt_cborUint t.toNat _ ht32]
  simp [cborDecodeInts, Int.toNat_of_nonneg hu0, Int.toNat_of_nonneg ht0]




theorem appendTrace_only_appends (lens : List Nat) :
    ∀ free : Nat, ∀ op ∈ (appendTrace free lens).1,
      op.isBegin = false ∧ op.isFinish = false := by
  induction lens with
  | nil =>
    intro free op hop
    simp [appendTrace] at hop
  | cons n rest ih =>
    intro free op hop
    by_cases h : n ≤ free
    · simp only [appendTrace, if_pos h, List.mem_cons] at hop
      rcases hop with rfl | hop
      · exact ⟨rfl, rfl⟩
      · exact ih (free - n) op hop
    · simp [appendTrace, if_neg h] at hop

theorem serializeTrace_shape (ms : List (eMemfaultMetricType × Int)) (free : Nat) :
    serializeTrace ms free =
      StorageOp.beginWrite ::
        (appendTrace free ((heartbeatChunks ms).map List.length)).1 ++
          [StorageOp.finishWrite (!(appendTrace free ((heartbeatChunks ms).map List.length)).2)] := rfl




/-! ### Value store

Modelled from the spec: `memfault_metrics.c` (the value-store
implementation behind the API declared in `memfault/metrics/metrics.h`) is
not among the provided sources. The model follows §4.2 of the spec: a
registry-indexed table of tagged values with type-checked `set`,
`increment` (wrapping per fixed 32-bit-width arithmetic, no saturation),
and `timer_start`/`timer_stop`, surfacing `UnknownKey`, `TypeMismatch`,
`AlreadyStarted` and `NotStarted` as nonzero status codes. -/

/-- Value-store error taxonomy (§7 of the spec). -/
inductive MetricsError where
  | UnknownKey
  | TypeMismatch
  | AlreadyStarted
  | NotStarted
deriving DecidableEq, Repr

/-- Status code of an error: every error is surfaced as a nonzero code
(the C API returns 0 on success, else an error code). -/
def MetricsError.toCode : MetricsError → Int
  | .UnknownKey => 1
  | .TypeMismatch => 2
  | .AlreadyStarted => 3
  | .NotStarted => 4

/-- Status code of an operation result: 0 on success, else the error code. -/
def statusCode : Option MetricsError → Int
  | none => 0
  | some e => e.toCode

/-- One registered metric: its id, registered type, current value, and the
pending timer start timestamp (if a `timer_start` is outstanding). -/
structure MetricEntry where
  id : Nat
  type : eMemfaultMetricType
  value : Int
  started : Option Nat
deriving DecidableEq, Repr

/-- The mutable value store: current entries, one per registered id. -/
abbrev ValueStore := List MetricEntry

/-- Look up the entry registered for `id` (the first matching one). -/
def findEntry (st : ValueStore) (id : Nat) : Option MetricEntry :=
  st.find? (fun e => e.id == id)

/-- Apply `f` to the entry registered for `id`, leaving others unchanged. -/
def updateEntry (st : ValueStore) (id : Nat) (f : MetricEntry → MetricEntry) :
    ValueStore :=
  st.map (fun e => if e.id == id then f e else e)

/-- Reduce an integer into unsigned 32-bit range, wrapping modulo `2^32`. -/
def wrapU32 (v : Int) : Int := v % 2 ^ 32

/-- Reduce an integer into signed 32-bit range, wrapping modulo `2^32`. -/
def wrapI32 (v : Int) : Int := (v + 2 ^ 31) % 2 ^ 32 - 2 ^ 31

/-- `memfault_metrics_heartbeat_set_signed`: overwrite the value of a
Signed metric; `TypeMismatch` if the registered type differs, `UnknownKey`
if the id is not registered. Returns the status and the resulting store. -/
def memfault_metrics_heartbeat_set_signed (st : ValueStore) (id : Nat) (v : Int) :
    Option MetricsError × ValueStore :=
  match findEntry st id with
  | none => (some .UnknownKey, st)
  | some e =>
    if e.type = .Signed then
      (none, updateEntry st id (fun e2 => { e2 with value := v }))
    else (some .TypeMismatch, st)

/-- `memfault_metrics_heartbeat_set_unsigned`: same as the signed setter,
for an Unsigned metric. -/
def memfault_metrics_heartbeat_set_unsigned (st : ValueStore) (id : Nat) (v : Int) :
    Option MetricsError × ValueStore :=
  match findEntry st id with
  | none => (some .UnknownKey, st)
  | some e =>
    if e.type = .Unsigned then
      (none, updateEntry st id (fun e2 => { e2 with value := v }))
    else (some .TypeMismatch, st)

/-- `memfault_metrics_heartbeat_add`: add `amount` to the current value of
a numeric (Unsigned or Signed) metric, wrapping per fixed 32-bit-width
modular arithmetic with no saturation; `TypeMismatch` on a non-numeric
(Timer) id, `UnknownKey` on an unregistered id. -/
def memfault_metrics_heartbeat_add (st : ValueStore) (id : Nat) (amount : Int) :
    Option MetricsError × ValueStore :=
  match findEntry st id with
  | none => (some .UnknownKey, st)
  | some e =>
    match e.type with
    | .Unsigned =>
      (none, updateEntry st id (fun e2 => { e2 with value := wrapU32 (e2.value + amount) }))
    | .Signed =>
      (none, updateEntry st id (fun e2 => { e2 with value := wrapI32 (e2.value + amount) }))
    | _ => (some .TypeMismatch, st)

/-- `memfault_metrics_heartbeat_timer_start`: record a start timestamp for
a Timer metric; `AlreadyStarted` if a start is already pending. -/
def memfault_metrics_heartbeat_timer_start (st : ValueStore) (id : Nat) (now : Nat) :
    Option MetricsError × ValueStore :=
  match findEntry st id with
  | none => (some .UnknownKey, st)
  | some e =>
    if e.type = .Timer then
      match e.started with
      | some _ => (some .AlreadyStarted, st)
      | none => (none, updateEntry st id (fun e2 => { e2 with started := some now }))
    else (some .TypeMismatch, st)

/-- `memfault_metrics_heartbeat_timer_stop`: compute the time elapsed since
the matching start and add it to the accumulated value (unsigned 32-bit);
`NotStarted` if no matching start is pending. -/
def memfault_metrics_heartbeat_timer_stop (st : ValueStore) (id : Nat) (now : Nat) :
    Option MetricsError × ValueStore :=
  match findEntry st id with
  | none => (some .UnknownKey, st)
  | some e =>
    if e.type = .Timer then
      match e.started with
      | none => (some .NotStarted, st)
      | some t0 =>
        (none, updateEntry st id (fun e2 =>
          { e2 with value := wrapU32 (e2.value + ((now - t0 : Nat) : Int)),
                    started := none }))
    else (some .TypeMismatch, st)

/-- The value store matching the registry of the serializer test, with every
value still at its boot default of 0. -/
def testStore : ValueStore :=
  [{ id := 0, type := .Unsigned, value := 0, started := none },
   { id := 1, type := .Signed, value := 0, started := none },
   { id := 2, type := .Timer, value := 0, started := none }]

theorem findEntry_updateEntry (st : ValueStore) (id : Nat)
    (f : MetricEntry → MetricEntry) (hf : ∀ e, (f e).id = e.id) :
    findEntry (updateEntry st id f) id = (findEntry st id).map f := by
  induction st with
  | nil => rfl
  | cons e rest ih =>
    by_cases h : e.id = id
    · simp [findEntry, updateEntry, List.find?_cons, h, hf]
    · simp only [updateEntry, List.map_cons] at *
      rw [if_neg (by simp [h])]
      simp only [findEntry, List.find?_cons] at *
      rw [show (e.id == id) = false by simp [h]]
      simpa [findEntry, updateEntry] using ih




/-- C1: for the registry declared in order as unsigned_int: Unsigned32 = 1000,
signed_int: Signed32 = -1000, timer_key: Timer = 1234, a successful
serialize commits a single self-describing CBOR record, byte-for-byte equal
to the reference encoding of the test, whose metrics array decodes to
[1000, -1000, 1234] in declaration order, with every integer in
minimal-width form (1000 as 0x19 0x03 0xe8, -1000 as 0x39 0x03 0xe7). -/
theorem C1_serialize_reference_encoding :
    (memfault_metrics_heartbeat_serialize testSnapshot (storageWithCommitted [] 50)).2 = true ∧
    committedBytes
        (memfault_metrics_heartbeat_serialize testSnapshot (storageWithCommitted [] 50)).1 =
      expected_serialization ∧
    heartbeatRecord testSnapshot = expected_serialization ∧
    cborDecodeIntArray (expected_serialization.drop envelopeSize) =
      some [1000, -1000, 1234] ∧
    cborUint 1000 = [0x19, 0x03, 0xe8] ∧
    cborInt (-1000) = [0x39, 0x03, 0xe7] := by
  refine ⟨by decide, by decide, by decide, by decide, by decide, by decide⟩

/-- C2 counterexample: capacity 50 lies in the range 0 .. worst_case_size - 1
claimed to always roll back (50 ≤ 55), yet serialize commits there
(finish_write rollback=false) and the committed contents change. -/
theorem C2_counterexample_commit_at_50 :
    50 ≤ memfault_metrics_heartbeat_compute_worst_case_storage_size 3 - 1 ∧
    (memfault_metrics_heartbeat_serialize testSnapshot (storageWithCommitted [] 50)).2 = true ∧
    committedBytes
        (memfault_metrics_heartbeat_serialize testSnapshot (storageWithCommitted [] 50)).1 ≠
      ([] : List Nat) := by
  refine ⟨by decide, by decide, by decide⟩

/-- C2 (amended): for every storage capacity c with 0 ≤ c ≤ actual encoded
size - 1 (that is c < 50, not c < worst_case_size = 56), a serialize call
terminates with finish_write(rollback=true) and leaves the previously
committed contents byte-for-byte unchanged; no partial record ever becomes
visible to the reader, at any truncation point. -/
theorem C2_rollback_below_encoded_size (prior : List Nat) (c : Nat)
    (h : c < (heartbeatRecord testSnapshot).length) :
    (memfault_metrics_heartbeat_serialize testSnapshot (storageWithCommitted prior c)).2 =
      false ∧
    committedBytes
        (memfault_metrics_heartbeat_serialize testSnapshot (storageWithCommitted prior c)).1 =
      prior := by
  constructor
  · rw [serialize_outcome]
    simpa using by omega
  · exact serialize_rollback_committed _ _ _ h

/-- C2 witness: at capacity 49 with one byte already committed, serialize
rolls back and the committed byte survives unchanged. -/
theorem C2_rollback_below_encoded_size_witness :
    49 < (heartbeatRecord testSnapshot).length ∧
    ((memfault_metrics_heartbeat_serialize testSnapshot (storageWithCommitted [7] 49)).2 =
        false ∧
      committedBytes
          (memfault_metrics_heartbeat_serialize testSnapshot (storageWithCommitted [7] 49)).1 =
        [7]) :=
  ⟨by decide, C2_rollback_below_encoded_size [7] 49 (by decide)⟩

/-- C3: for every storage capacity at least worst_case_size, a serialize
call commits exactly one record; the record's metrics array contains
exactly len(registry) = 3 entries, each encoded with the type registered
for its id, and decodes back to the stored values in declaration order. -/
theorem C3_commit_at_or_above_worst_case (prior : List Nat) (c : Nat) (u s t : Int)
    (hu0 : 0 ≤ u) (hu : u < 2 ^ 32) (hs0 : -(2 ^ 31) ≤ s) (hs : s < 2 ^ 31)
    (ht0 : 0 ≤ t) (ht : t < 2 ^ 32)
    (hc : memfault_metrics_heartbeat_compute_worst_case_storage_size 3 ≤ c) :
    (memfault_metrics_heartbeat_serialize (heartbeatMetrics u s t)
        (storageWithCommitted prior c)).2 = true ∧
    committedBytes
        (memfault_metrics_heartbeat_serialize (heartbeatMetrics u s t)
          (storageWithCommitted prior c)).1 =
      prior ++ heartbeatRecord (heartbeatMetrics u s t) ∧
    (heartbeatMetrics u s t).length = 3 ∧
    (heartbeatRecord (heartbeatMetrics u s t)).drop envelopeSize =
      cborArrayHead 3 ++
        (encodeMetricValue (.Unsigned, u) ++
          (encodeMetricValue (.Signed, s) ++ (encodeMetricValue (.Timer, t) ++ []))) ∧
    cborDecodeIntArray ((heartbeatRecord (heartbeatMetrics u s t)).drop envelopeSize) =
      some [u, s, t] := by
  have hlen : (heartbeatRecord (heartbeatMetrics u s t)).length ≤ c := by
    have hb := heartbeatRecord_length_le_worst_case (heartbeatMetrics u s t)
    have hms : (heartbeatMetrics u s t).length = 3 := rfl
    rw [hms] at hb
    omega
  refine ⟨?_, serialize_commit_committed _ _ _ hlen, rfl, ?_, ?_⟩
  · rw [serialize_outcome]
    simpa using hlen
  · rw [heartbeatRecord_drop_envelope]
    rfl
  · rw [heartbeatRecord_drop_envelope]
    exact metrics_section_decodes u s t hu0 hu hs0 hs ht0 ht

/-- C3 witness: with capacity exactly worst_case_size = 56 and the test
values, serialize commits the full record. -/
theorem C3_commit_at_or_above_worst_case_witness :
    (0 ≤ (1000 : Int) ∧ (1000 : Int) < 2 ^ 32 ∧ -(2 ^ 31) ≤ (-1000 : Int) ∧
      (-1000 : Int) < 2 ^ 31 ∧ 0 ≤ (1234 : Int) ∧ (1234 : Int) < 2 ^ 32 ∧
      memfault_metrics_heartbeat_compute_worst_case_storage_size 3 ≤ 56) ∧
    ((memfault_metrics_heartbeat_serialize (heartbeatMetrics 1000 (-1000) 1234)
        (storageWithCommitted [] 56)).2 = true ∧
      committedBytes
          (memfault_metrics_heartbeat_serialize (heartbeatMetrics 1000 (-1000) 1234)
            (storageWithCommitted [] 56)).1 =
        [] ++ heartbeatRecord (heartbeatMetrics 1000 (-1000) 1234) ∧
      (heartbeatMetrics 1000 (-1000) 1234).length = 3 ∧
      (heartbeatRecord (heartbeatMetrics 1000 (-1000) 1234)).drop envelopeSize =
        cborArrayHead 3 ++
          (encodeMetricValue (.Unsigned, 1000) ++
            (encodeMetricValue (.Signed, -1000) ++ (encodeMetricValue (.Timer, 1234) ++ []))) ∧
      cborDecodeIntArray
          ((heartbeatRecord (heartbeatMetrics 1000 (-1000) 1234)).drop envelopeSize) =
        some [1000, -1000, 1234]) :=
  ⟨⟨by decide, by decide, by decide, by decide, by decide, by decide, by decide⟩,
    C3_commit_at_or_above_worst_case [] 56 1000 (-1000) 1234 (by decide) (by decide)
      (by decide) (by decide) (by decide) (by decide) (by decide)⟩

/-- C4: worst_case_size is a pure function of the registry size; for the
three-metric registry it returns exactly 56, and it bounds the actual
encoded size of every snapshot of that registry. -/
theorem C4_worst_case_size_bounds :
    memfault_metrics_heartbeat_compute_worst_case_storage_size 3 = 56 ∧
    ∀ u s t : Int,
      (heartbeatRecord (heartbeatMetrics u s t)).length ≤
        memfault_metrics_heartbeat_compute_worst_case_storage_size 3 := by
  refine ⟨by decide, fun u s t => ?_⟩
  have hb := heartbeatRecord_length_le_worst_case (heartbeatMetrics u s t)
  have hms : (heartbeatMetrics u s t).length = 3 := rfl
  rwa [hms] at hb

/-- C5: every serialize invocation opens its storage transaction with
exactly one begin_write, terminates it with exactly one finish_write
(commit or rollback), and the trace ends on that finish_write: no
transaction is left dangling, on any capacity. -/
theorem C5_transaction_discipline (ms : List (eMemfaultMetricType × Int)) (free : Nat) :
    (serializeTrace ms free).countP StorageOp.isBegin = 1 ∧
    (serializeTrace ms free).countP StorageOp.isFinish = 1 ∧
    (serializeTrace ms free).head? = some .beginWrite ∧
    ∃ rb, (serializeTrace ms free).getLast? = some (.finishWrite rb) := by
  have hops := appendTrace_only_appends ((heartbeatChunks ms).map List.length) free
  rw [serializeTrace_shape]
  have h0b : (appendTrace free ((heartbeatChunks ms).map List.length)).1.countP
      StorageOp.isBegin = 0 := by
    rw [List.countP_eq_zero]
    intro op hop
    simp [(hops op hop).1]
  have h0f : (appendTrace free ((heartbeatChunks ms).map List.length)).1.countP
      StorageOp.isFinish = 0 := by
    rw [List.countP_eq_zero]
    intro op hop
    simp [(hops op hop).2]
  refine ⟨?_, ?_, rfl, ?_⟩
  · rw [List.countP_append, List.countP_cons, h0b]
    simp [StorageOp.isBegin]
  · rw [List.countP_append, List.countP_cons, h0f]
    simp [StorageOp.isFinish]
  · exact ⟨!(appendTrace free ((heartbeatChunks ms).map List.length)).2,
      List.getLast?_concat _⟩

/-- C9: with the fake storage capacity of 50 bytes, strictly less than
worst_case_size = 56, serialize still commits: the commit/rollback decision
is driven by the actual appends against remaining capacity, and the actual
encoded record (50 bytes) is strictly smaller than the worst-case bound. -/
theorem C9_commit_below_worst_case :
    (heartbeatRecord testSnapshot).length = 50 ∧
    memfault_metrics_heartbeat_compute_worst_case_storage_size 3 = 56 ∧
    (heartbeatRecord testSnapshot).length <
      memfault_metrics_heartbeat_compute_worst_case_storage_size 3 ∧
    (memfault_metrics_heartbeat_serialize testSnapshot (storageWithCommitted [] 50)).2 =
      true ∧
    committedBytes
        (memfault_metrics_heartbeat_serialize testSnapshot (storageWithCommitted [] 50)).1 =
      expected_serialization := by
  refine ⟨by decide, by decide, by decide, by decide, by decide⟩

/-- C10: the numeric codes of the metric type enumeration are wire-stable:
Unsigned = 0, Signed = 1, Timer = 2, and NumTypes = 3 is last. -/
theorem C10_metric_type_codes :
    eMemfaultMetricType.code .Unsigned = 0 ∧
    eMemfaultMetricType.code .Signed = 1 ∧
    eMemfaultMetricType.code .Timer = 2 ∧
    eMemfaultMetricType.code .NumTypes = 3 := by
  refine ⟨rfl, rfl, rfl, rfl⟩




theorem wrapU32_modeq (x : Int) : wrapU32 x ≡ x [ZMOD 2 ^ 32] := by
  unfold wrapU32 Int.ModEq
  omega

theorem wrapU32_range (x : Int) : 0 ≤ wrapU32 x ∧ wrapU32 x < 2 ^ 32 := by
  unfold wrapU32
  omega

theorem wrapI32_modeq (x : Int) : wrapI32 x ≡ x [ZMOD 2 ^ 32] := by
  unfold wrapI32 Int.ModEq
  omega

theorem wrapI32_range (x : Int) : -(2 ^ 31) ≤ wrapI32 x ∧ wrapI32 x < 2 ^ 31 := by
  unfold wrapI32
  omega

/-- C6: for a Timer id with no pending start, timer_start followed by
timer_stop succeeds and increases the stored accumulated value by the
elapsed time, a non-negative amount; timer_stop without a pending matching
timer_start fails with NotStarted, a nonzero status code, rather than
silently succeeding. -/
theorem C6_timer_start_stop (st : ValueStore) (id : Nat) (t0 t1 : Nat) (e : MetricEntry)
    (hfind : findEntry st id = some e) (hty : e.type = .Timer) (hst : e.started = none)
    (hval : 0 ≤ e.value) (hrange : e.value + ((t1 - t0 : Nat) : Int) < 2 ^ 32) :
    (∃ st1 st2,
      memfault_metrics_heartbeat_timer_start st id t0 = (none, st1) ∧
      memfault_metrics_heartbeat_timer_stop st1 id t1 = (none, st2) ∧
      (findEntry st2 id).map MetricEntry.value =
        some (e.value + ((t1 - t0 : Nat) : Int)) ∧
      e.value ≤ e.value + ((t1 - t0 : Nat) : Int)) ∧
    (memfault_metrics_heartbeat_timer_stop st id t1).1 = some .NotStarted ∧
    statusCode (memfault_metrics_heartbeat_timer_stop st id t1).1 ≠ 0 := by
  have hcast : (0 : Int) ≤ ((t1 - t0 : Nat) : Int) := Int.ofNat_nonneg _
  have hwrap : wrapU32 (e.value + ((t1 - t0 : Nat) : Int)) =
      e.value + ((t1 - t0 : Nat) : Int) := by
    unfold wrapU32
    omega
  have hstop0 : memfault_metrics_heartbeat_timer_stop st id t1 = (some .NotStarted, st) := by
    simp [memfault_metrics_heartbeat_timer_stop, hfind, hty, hst]
  refine ⟨?_, by rw [hstop0], by rw [hstop0]; simp [statusCode, MetricsError.toCode]⟩
  have hfind1 : findEntry
      (updateEntry st id fun e2 => { e2 with started := some t0 }) id =
      some { e with started := some t0 } := by
    rw [findEntry_updateEntry st id (fun e2 => { e2 with started := some t0 })
      (fun _ => rfl), hfind]
    rfl
  refine ⟨updateEntry st id fun e2 => { e2 with started := some t0 },
    updateEntry (updateEntry st id fun e2 => { e2 with started := some t0 }) id
      fun e2 =>
        { e2 with
          value := wrapU32 (e2.value + ((t1 - t0 : Nat) : Int)), started := none },
    ?_, ?_, ?_, by omega⟩
  · simp [memfault_metrics_heartbeat_timer_start, hfind, hty, hst]
  · simp [memfault_metrics_heartbeat_timer_stop, hfind1, hty]
  · rw [findEntry_updateEntry _ _
      (fun e2 =>
        { e2 with
          value := wrapU32 (e2.value + ((t1 - t0 : Nat) : Int)), started := none })
      (fun _ => rfl), hfind1]
    simp [hwrap]

/-- C6 witness: on the test store's timer metric (id 2, value 0), start at
time 10 and stop at time 20 accumulates 10; a bare stop reports NotStarted
with a nonzero code. -/
theorem C6_timer_start_stop_witness :
    (findEntry testStore 2 =
        some { id := 2, type := .Timer, value := 0, started := none } ∧
      (0 : Int) ≤ 0 ∧ (0 : Int) + ((20 - 10 : Nat) : Int) < 2 ^ 32) ∧
    ((∃ st1 st2,
        memfault_metrics_heartbeat_timer_start testStore 2 10 = (none, st1) ∧
        memfault_metrics_heartbeat_timer_stop st1 2 20 = (none, st2) ∧
        (findEntry st2 2).map MetricEntry.value =
          some ((0 : Int) + ((20 - 10 : Nat) : Int)) ∧
        (0 : Int) ≤ (0 : Int) + ((20 - 10 : Nat) : Int)) ∧
      (memfault_metrics_heartbeat_timer_stop testStore 2 20).1 = some .NotStarted ∧
      statusCode (memfault_metrics_heartbeat_timer_stop testStore 2 20).1 ≠ 0) :=
  ⟨⟨by decide, by decide, by decide⟩,
    C6_timer_start_stop testStore 2 10 20
      { id := 2, type := .Timer, value := 0, started := none }
      (by decide) rfl rfl (by decide) (by decide)⟩

/-- C7: calling a setter on an id whose registered type differs from the
setter's type fails with TypeMismatch (a nonzero status code) and leaves
the store, hence the stored value of that id, unchanged; calling it on an
unregistered id fails with UnknownKey. -/
theorem C7_set_type_checked :
    (∀ (st : ValueStore) (id : Nat) (v : Int) (e : MetricEntry),
      findEntry st id = some e → e.type ≠ .Signed →
        memfault_metrics_heartbeat_set_signed st id v = (some .TypeMismatch, st) ∧
        statusCode (memfault_metrics_heartbeat_set_signed st id v).1 ≠ 0) ∧
    (∀ (st : ValueStore) (id : Nat) (v : Int) (e : MetricEntry),
      findEntry st id = some e → e.type ≠ .Unsigned →
        memfault_metrics_heartbeat_set_unsigned st id v = (some .TypeMismatch, st) ∧
        statusCode (memfault_metrics_heartbeat_set_unsigned st id v).1 ≠ 0) ∧
    (∀ (st : ValueStore) (id : Nat) (v : Int),
      findEntry st id = none →
        memfault_metrics_heartbeat_set_signed st id v = (some .UnknownKey, st) ∧
        statusCode (memfault_metrics_heartbeat_set_signed st id v).1 ≠ 0) ∧
    (∀ (st : ValueStore) (id : Nat) (v : Int),
      findEntry st id = none →
        memfault_metrics_heartbeat_set_unsigned st id v = (some .UnknownKey, st) ∧
        statusCode (memfault_metrics_heartbeat_set_unsigned st id v).1 ≠ 0) := by
  refine ⟨fun st id v e hfind hty => ?_, fun st id v e hfind hty => ?_,
    fun st id v hfind => ?_, fun st id v hfind => ?_⟩
  · have h : memfault_metrics_heartbeat_set_signed st id v = (some .TypeMismatch, st) := by
      simp [memfault_metrics_heartbeat_set_signed, hfind, hty]
    exact ⟨h, by rw [h]; simp [statusCode, MetricsError.toCode]⟩
  · have h : memfault_metrics_heartbeat_set_unsigned st id v = (some .TypeMismatch, st) := by
      simp [memfault_metrics_heartbeat_set_unsigned, hfind, hty]
    exact ⟨h, by rw [h]; simp [statusCode, MetricsError.toCode]⟩
  · have h : memfault_metrics_heartbeat_set_signed st id v = (some .UnknownKey, st) := by
      simp [memfault_metrics_heartbeat_set_signed, hfind]
    exact ⟨h, by rw [h]; simp [statusCode, MetricsError.toCode]⟩
  · have h : memfault_metrics_heartbeat_set_unsigned st id v = (some .UnknownKey, st) := by
      simp [memfault_metrics_heartbeat_set_unsigned, hfind]
    exact ⟨h, by rw [h]; simp [statusCode, MetricsError.toCode]⟩

/-- C7 witness: setting the Unsigned metric (id 0) through the signed
setter fails with TypeMismatch and leaves the store unchanged; setting an
unregistered id 9 fails with UnknownKey. -/
theorem C7_set_type_checked_witness :
    (findEntry testStore 0 =
        some { id := 0, type := .Unsigned, value := 0, started := none } ∧
      ({ id := 0, type := .Unsigned, value := 0, started := none } :
          MetricEntry).type ≠ .Signed ∧
      findEntry testStore 9 = none) ∧
    (memfault_metrics_heartbeat_set_signed testStore 0 5 =
        (some .TypeMismatch, testStore) ∧
      statusCode (memfault_metrics_heartbeat_set_signed testStore 0 5).1 ≠ 0) ∧
    (memfault_metrics_heartbeat_set_unsigned testStore 9 5 =
        (some .UnknownKey, testStore) ∧
      statusCode (memfault_metrics_heartbeat_set_unsigned testStore 9 5).1 ≠ 0) :=
  ⟨⟨by decide, by decide, by decide⟩,
    C7_set_type_checked.1 testStore 0 5
      { id := 0, type := .Unsigned, value := 0, started := none } (by decide) (by decide),
    (C7_set_type_checked.2.2.2) testStore 9 5 (by decide)⟩

/-- C8: add (increment) on a numeric id succeeds and the new stored value
is congruent to the old value plus the delta modulo 2^32, reduced into the
registered 32-bit range (wrapping, no saturation); on a Timer id it fails
with TypeMismatch, and on an unregistered id with UnknownKey, each a
nonzero status code, leaving the store unchanged. -/
theorem C8_add_modular_wrap :
    (∀ (st : ValueStore) (id : Nat) (a : Int) (e : MetricEntry),
      findEntry st id = some e → e.type = .Unsigned →
        (memfault_metrics_heartbeat_add st id a).1 = none ∧
        ∃ w, (findEntry (memfault_metrics_heartbeat_add st id a).2 id).map
              MetricEntry.value = some w ∧
          w ≡ e.value + a [ZMOD 2 ^ 32] ∧ 0 ≤ w ∧ w < 2 ^ 32) ∧
    (∀ (st : ValueStore) (id : Nat) (a : Int) (e : MetricEntry),
      findEntry st id = some e → e.type = .Signed →
        (memfault_metrics_heartbeat_add st id a).1 = none ∧
        ∃ w, (findEntry (memfault_metrics_heartbeat_add st id a).2 id).map
              MetricEntry.value = some w ∧
          w ≡ e.value + a [ZMOD 2 ^ 32] ∧ -(2 ^ 31) ≤ w ∧ w < 2 ^ 31) ∧
    (∀ (st : ValueStore) (id : Nat) (a : Int) (e : MetricEntry),
      findEntry st id = some e → e.type = .Timer →
        memfault_metrics_heartbeat_add st id a = (some .TypeMismatch, st) ∧
        statusCode (memfault_metrics_heartbeat_add st id a).1 ≠ 0) ∧
    (∀ (st : ValueStore) (id : Nat) (a : Int),
      findEntry st id = none →
        memfault_metrics_heartbeat_add st id a = (some .UnknownKey, st) ∧
        statusCode (memfault_metrics_heartbeat_add st id a).1 ≠ 0) := by
  refine ⟨fun st id a e hfind hty => ?_, fun st id a e hfind hty => ?_,
    fun st id a e hfind hty => ?_, fun st id a hfind => ?_⟩
  · have heq : memfault_metrics_heartbeat_add st id a =
        (none, updateEntry st id fun e2 => { e2 with value := wrapU32 (e2.value + a) }) := by
      simp [memfault_metrics_heartbeat_add, hfind, hty]
    refine ⟨by rw [heq], wrapU32 (e.value + a), ?_, wrapU32_modeq _,
      (wrapU32_range _).1, (wrapU32_range _).2⟩
    rw [heq]
    show (findEntry (updateEntry st id
      (fun e2 => { e2 with value := wrapU32 (e2.value + a) })) id).map MetricEntry.value = _
    rw [findEntry_updateEntry st id
      (fun e2 => { e2 with value := wrapU32 (e2.value + a) }) (fun _ => rfl), hfind]
    rfl
  · have heq : memfault_metrics_heartbeat_add st id a =
        (none, updateEntry st id fun e2 => { e2 with value := wrapI32 (e2.value + a) }) := by
      simp [memfault_metrics_heartbeat_add, hfind, hty]
    refine ⟨by rw [heq], wrapI32 (e.value + a), ?_, wrapI32_modeq _,
      (wrapI32_range _).1, (wrapI32_range _).2⟩
    rw [heq]
    show (findEntry (updateEntry st id
      (fun e2 => { e2 with value := wrapI32 (e2.value + a) })) id).map MetricEntry.value = _
    rw [findEntry_updateEntry st id
      (fun e2 => { e2 with value := wrapI32 (e2.value + a) }) (fun _ => rfl), hfind]
    rfl
  · have h : memfault_metrics_heartbeat_add st id a = (some .TypeMismatch, st) := by
      simp [memfault_metrics_heartbeat_add, hfind, hty]
    exact ⟨h, by rw [h]; simp [statusCode, MetricsError.toCode]⟩
  · have h : memfault_metrics_heartbeat_add st id a = (some .UnknownKey, st) := by
      simp [memfault_metrics_heartbeat_add, hfind]
    exact ⟨h, by rw [h]; simp [statusCode, MetricsError.toCode]⟩

/-- C8 witness: adding -3 to the Unsigned metric (id 0, value 0) wraps into
unsigned range; adding to the Timer id 2 fails with TypeMismatch; adding to
the unregistered id 9 fails with UnknownKey. -/
theorem C8_add_modular_wrap_witness :
    (findEntry testStore 0 =
        some { id := 0, type := .Unsigned, value := 0, started := none } ∧
      findEntry testStore 2 =
        some { id := 2, type := .Timer, value := 0, started := none } ∧
      findEntry testStore 9 = none) ∧
    ((memfault_metrics_heartbeat_add testStore 0 (-3)).1 = none ∧
      ∃ w, (findEntry (memfault_metrics_heartbeat_add testStore 0 (-3)).2 0).map
            MetricEntry.value = some w ∧
        w ≡ (0 : Int) + (-3) [ZMOD 2 ^ 32] ∧ 0 ≤ w ∧ w < 2 ^ 32) ∧
    (memfault_metrics_heartbeat_add testStore 2 1 = (some .TypeMismatch, testStore) ∧
      statusCode (memfault_metrics_heartbeat_add testStore 2 1).1 ≠ 0) ∧
    (memfault_metrics_heartbeat_add testStore 9 1 = (some .UnknownKey, testStore) ∧
      statusCode (memfault_metrics_heartbeat_add testStore 9 1).1 ≠ 0) :=
  ⟨⟨by decide, by decide, by decide⟩,
    C8_add_modular_wrap.1 testStore 0 (-3)
      { id := 0, type := .Unsigned, value := 0, started := none } (by decide) rfl,
    C8_add_modular_wrap.2.2.1 testStore 2 1
      { id := 2, type := .Timer, value := 0, started := none } (by decide) rfl,
    C8_add_modular_wrap.2.2.2 testStore 9 1 (by decide)⟩


end Memfault
